import Mathlib

/-!
Shallow embedding of `qiime2_methods.py` (class `Qiime2Methods`), a catalog of
external-tool argument-vector builders, a taxonomy-file header rewriter, a
filesystem enumerator, and bounded parallel dispatchers.

Modelling conventions:
- An external command line (the `cmd` list passed to `subprocess.run`) is a
  `List String`.
- A step function that builds a command and calls `subprocess.run(cmd)` once is
  embedded as the list of command lines it issues, in order.
- Python exceptions are modelled with `Except PyError` (`TypeError` from a call
  with the wrong number of positional arguments, `IndexError` from list
  indexing, `StopIteration` from `next` on an exhausted iterator,
  `CalledProcessError` from `subprocess.run(check=True)`, and the two
  filesystem errors raised by `pathlib.Path.mkdir`).
- CPU counts are `Nat` (the claims restrict to non-negative budgets); Python
  `int(cpu / 4)` truncates, which on non-negative integers equals `Nat` floor
  division `cpu / 4`.
-/

set_option autoImplicit false

namespace Qiime2Methods

abbrev Cmd := List String

inductive PyError where
  | typeError (nargs : Nat)
  | indexError
  | stopIteration
  | calledProcessError (code : Int)
  | fileExistsError
  | fileNotFoundError
deriving DecidableEq, Repr

/-- Model of `os.path.basename`: the part of the path after the last slash. -/
def basename (p : String) : String :=
  (p.splitOn "/").getLastD ""

/-- Model of `s.split(an underscore)[0]`: the text before the first underscore. -/
def sampleToken (s : String) : String :=
  (s.splitOn "_").headD ""

/-- Command built by `rc_fastq`: `reformat.sh ow=t rcomp=t in=... out=...`. -/
def rc_fastq_cmd (input_fastq output_fastq : String) : Cmd :=
  ["reformat.sh", "ow=t", "rcomp=t",
   "in=" ++ input_fastq,
   "out=" ++ output_fastq]

/-- `rc_fastq` builds its command and runs it once. -/
def rc_fastq (input_fastq output_fastq : String) : List Cmd :=
  [rc_fastq_cmd input_fastq output_fastq]

/-- Command built by `extract_its_se` (ITSxpress, single end). -/
def extract_its_se_cmd (fastq_file output_folder log_folder : String) (cpu : Nat) : Cmd :=
  ["itsxpress",
   "--threads", toString cpu,
   "--single_end",
   "--fastq", fastq_file,
   "--region", "ITS1",
   "--taxa", "Fungi",
   "--cluster_id", "0.99",
   "--outfile", output_folder ++ "/" ++ basename fastq_file,
   "--log", log_folder ++ "/" ++ sampleToken (basename fastq_file) ++ ".log",
   "--threads", toString cpu]

/-- `extract_its_se` builds its command and runs it once. -/
def extract_its_se (fastq_file output_folder log_folder : String) (cpu : Nat) : List Cmd :=
  [extract_its_se_cmd fastq_file output_folder log_folder cpu]

/-- Command built by `extract_its_pe` (ITSxpress, paired end): one command
referencing both mates via `--fastq` and `--fastq2`. -/
def extract_its_pe_cmd (fastq_r1 fastq_r2 output_folder log_folder : String) (cpu : Nat) : Cmd :=
  ["itsxpress",
   "--threads", toString cpu,
   "--fastq", fastq_r1,
   "--fastq2", fastq_r2,
   "--region", "ITS1",
   "--taxa", "Fungi",
   "--cluster_id", "0.99",
   "--outfile", output_folder ++ "/" ++ basename fastq_r1,
   "--outfile2", output_folder ++ "/" ++ basename fastq_r2,
   "--log", log_folder ++ "/" ++ sampleToken (basename fastq_r1) ++ ".log",
   "--threads", toString cpu]

/-- `extract_its_pe` builds its command and runs it once. -/
def extract_its_pe (fastq_r1 fastq_r2 output_folder log_folder : String) (cpu : Nat) : List Cmd :=
  [extract_its_pe_cmd fastq_r1 fastq_r2 output_folder log_folder cpu]

/-- Command built by `fix_fastq_se`. -/
def fix_fastq_se_cmd (fastq_file : String) : Cmd :=
  ["python", "remove_empty_fastq_entries.py",
   "-f", fastq_file]

/-- `fix_fastq_se` builds its command and runs it once. -/
def fix_fastq_se (fastq_file : String) : List Cmd :=
  [fix_fastq_se_cmd fastq_file]

/-- Command built by `fix_fastq_pe`: one command referencing both mates via
`-f` and `-f2`. -/
def fix_fastq_pe_cmd (fastq_r1 fastq_r2 : String) : Cmd :=
  ["python", "remove_empty_fastq_entries.py",
   "-f", fastq_r1,
   "-f2", fastq_r2]

/-- `fix_fastq_pe` builds its command and runs it once. -/
def fix_fastq_pe (fastq_r1 fastq_r2 : String) : List Cmd :=
  [fix_fastq_pe_cmd fastq_r1 fastq_r2]

/-- Command built by `qiime2_classify`. -/
def qiime2_classify_cmd (qiime2_classifier repseqs_qza taxonomy_qza : String) : Cmd :=
  ["qiime", "feature-classifier", "classify-sklearn",
   "--p-n-jobs", toString (-1 : Int),
   "--i-classifier", qiime2_classifier,
   "--i-reads", repseqs_qza,
   "--o-classification", taxonomy_qza]

/-- `qiime2_classify` builds its command and runs it once. -/
def qiime2_classify (qiime2_classifier repseqs_qza taxonomy_qza : String) : List Cmd :=
  [qiime2_classify_cmd qiime2_classifier repseqs_qza taxonomy_qza]

/-- Command built by `qiime2_core_diversity`. -/
def qiime2_core_diversity_cmd (cpu : Nat)
    (metadata_file rooted_tree_qza table_qza output_folder : String) : Cmd :=
  ["qiime", "diversity", "core-metrics-phylogenetic",
   "--p-n-jobs-or-threads", toString cpu,
   "--p-sampling-depth", "1000",
   "--i-phylogeny", rooted_tree_qza,
   "--i-table", table_qza,
   "--m-metadata-file", metadata_file,
   "--output-dir", output_folder ++ "/core-metrics-results"]

/-- `qiime2_core_diversity` assigns its `cmd` variable but, unlike every other
step in the module, never passes it to `subprocess.run`: it issues no
invocation at all. -/
def qiime2_core_diversity (cpu : Nat)
    (metadata_file rooted_tree_qza table_qza output_folder : String) : List Cmd :=
  let _cmd := qiime2_core_diversity_cmd cpu metadata_file rooted_tree_qza table_qza output_folder
  []

/-- Result object of `subprocess.run`. -/
structure CompletedProcess where
  args : Cmd
  returncode : Int
deriving DecidableEq, Repr

/-- Model of `subprocess.run(cmd, check=...)`, parameterised by the exit code
the external program happens to return. With `check := true` a non-zero exit
raises `CalledProcessError`; with `check := false` (the default, and the only
form this module uses) the call returns normally whatever the exit code. -/
def subprocess_run (cmd : Cmd) (check : Bool) (returncode : Int) :
    Except PyError CompletedProcess :=
  if check ∧ returncode ≠ 0 then
    .error (.calledProcessError returncode)
  else
    .ok { args := cmd, returncode := returncode }

/-- `rc_fastq` as executed against an external program exiting with
`returncode`: `subprocess.run(cmd)` with the default `check=False`, result
discarded, function returns `None`. -/
def rc_fastq_exec (input_fastq output_fastq : String) (returncode : Int) :
    Except PyError Unit := do
  let _ ← subprocess_run (rc_fastq_cmd input_fastq output_fastq) false returncode
  pure ()

/-- `qiime2_classify` as executed against an external program exiting with
`returncode`. -/
def qiime2_classify_exec (qiime2_classifier repseqs_qza taxonomy_qza : String)
    (returncode : Int) : Except PyError Unit := do
  let _ ← subprocess_run
    (qiime2_classify_cmd qiime2_classifier repseqs_qza taxonomy_qza) false returncode
  pure ()

/-! Taxonomy header rewrite (`change_taxonomy_file_header`). A text file is a
list of the lines its Python file iterator yields (each line keeps its
trailing newline). -/

/-- The fixed replacement header line written by `change_taxonomy_file_header`. -/
def newHeader : String := "#OTUID\ttaxonomy\tconfidence\n"

/-- Filesystem outcome of `change_taxonomy_file_header`: whether an exception
propagated, the content now at the original path, and the content of the
`.tmp` sibling if that file still exists. -/
structure TaxOutcome where
  raised : Bool
  orig : List String
  tmp : Option (List String)
deriving DecidableEq, Repr

/-- `change_taxonomy_file_header input_taxo`: opens `input_taxo + ".tmp"` for
writing, writes the new header, then `next(in_f)` skips the first line of the
original and the remaining lines are copied; finally `os.replace` moves the
temp file over the original. On a zero-line input, `next` raises
`StopIteration` after the header was already written to the temp file, so the
replace never runs: the original is untouched and the temp file is left
holding only the header. -/
def change_taxonomy_file_header (orig : List String) : TaxOutcome :=
  match orig with
  | [] => { raised := true, orig := orig, tmp := some [newHeader] }
  | _head :: rest => { raised := false, orig := newHeader :: rest, tmp := none }

/-! Bounded parallel dispatchers. `executor.map(lambda p: f(*p), args)` builds
one positional-argument tuple per work item and applies the worker with tuple
unpacking; iterating the results re-raises the first exception a task raised.
A positional argument is a string or an int, and applying a worker to a tuple
whose shape does not match its parameter list raises `TypeError`. -/

inductive PyArg where
  | s (v : String)
  | i (v : Nat)
deriving DecidableEq, Repr

/-- Apply `extract_its_se` (4 parameters) to a positional-argument tuple. -/
def extract_its_se_apply : List PyArg → Except PyError (List Cmd)
  | [.s fastq_file, .s output_folder, .s log_folder, .i cpu] =>
      .ok (extract_its_se fastq_file output_folder log_folder cpu)
  | args => .error (.typeError args.length)

/-- Apply `extract_its_pe` (5 parameters) to a positional-argument tuple. -/
def extract_its_pe_apply : List PyArg → Except PyError (List Cmd)
  | [.s fastq_r1, .s fastq_r2, .s output_folder, .s log_folder, .i cpu] =>
      .ok (extract_its_pe fastq_r1 fastq_r2 output_folder log_folder cpu)
  | args => .error (.typeError args.length)

/-- Sequencing of `executor.map` followed by the `for results in ...: pass`
loop: every task is applied in submission order and the first raised exception
propagates to the caller. -/
def runTasks {α β : Type} (f : α → Except PyError β) : List α → Except PyError (List β)
  | [] => .ok []
  | a :: rest =>
    match f a with
    | .error e => .error e
    | .ok b =>
      match runTasks f rest with
      | .error e => .error e
      | .ok bs => .ok (b :: bs)

/-- A dispatch call: the worker-pool size handed to `ThreadPoolExecutor` and
the per-item worker results (each item issuing its own command lines). -/
structure DispatchPlan where
  pool_size : Nat
  tasks : Except PyError (List (List Cmd))
deriving Repr

/-- `rc_fastq_parallel(fastq_list, output_folder, cpu)`: pool of
`int(cpu / 4)` workers; for each fastq it builds the 3-tuple
`(fastq, output_folder, int(cpu / 4))` and maps `extract_its_se` over the
tuples by unpacking. `extract_its_se` takes 4 positional parameters, so every
applied task raises `TypeError`. -/
def rc_fastq_parallel (fastq_list : List String) (output_folder : String) (cpu : Nat) :
    DispatchPlan :=
  { pool_size := cpu / 4,
    tasks := runTasks extract_its_se_apply
      (fastq_list.map fun fastq => [PyArg.s fastq, PyArg.s output_folder, PyArg.i (cpu / 4)]) }

/-- `extract_its_se_parallel(fastq_list, output_folder, log_folder, cpu)`:
pool of `int(cpu / 4)` workers, one `extract_its_se` call per fastq, each
receiving `int(cpu / 4)` as its CPU share. -/
def extract_its_se_parallel (fastq_list : List String)
    (output_folder log_folder : String) (cpu : Nat) : DispatchPlan :=
  { pool_size := cpu / 4,
    tasks := runTasks extract_its_se_apply
      (fastq_list.map fun fastq =>
        [PyArg.s fastq, PyArg.s output_folder, PyArg.s log_folder, PyArg.i (cpu / 4)]) }

/-- Python list indexing: `l[i]`, raising `IndexError` when out of range. -/
def pyIndex {α : Type} (l : List α) (i : Nat) : Except PyError α :=
  match l.get? i with
  | some x => .ok x
  | none => .error .indexError

/-- One task of `extract_its_pe_parallel`: build the 5-tuple
`(fastq_list[0], fastq_list[1], output_folder, log_folder, share)` for a
sample and apply `extract_its_pe` to it by unpacking. -/
def extract_its_pe_task (output_folder log_folder : String) (share : Nat)
    (sample : String × List String) : Except PyError (List Cmd) := do
  let r1 ← pyIndex sample.2 0
  let r2 ← pyIndex sample.2 1
  extract_its_pe_apply
    [PyArg.s r1, PyArg.s r2, PyArg.s output_folder, PyArg.s log_folder, PyArg.i share]

/-- `extract_its_pe_parallel(sample_dict, output_folder, log_folder, cpu)`:
`sample_dict` maps each sample to its list of fastq paths (a Python dict in
insertion order); pool of `int(cpu / 4)` workers, one `extract_its_pe` call
per sample, each receiving `int(cpu / 4)` as its CPU share. -/
def extract_its_pe_parallel (sample_dict : List (String × List String))
    (output_folder log_folder : String) (cpu : Nat) : DispatchPlan :=
  { pool_size := cpu / 4,
    tasks := runTasks (extract_its_pe_task output_folder log_folder (cpu / 4)) sample_dict }

/-! Filesystem enumerator. A directory holds a list of entries: regular
files, non-regular non-directory entries (for which `os.path.isfile` is
false, e.g. broken symlinks), and subdirectories. -/

inductive Entry where
  | file (childName : String)
  | special (childName : String)
  | dir (childName : String) (entries : List Entry)
deriving Repr

/-- Model of `os.path.join(root, childName)` for a relative child component. -/
def pathJoin (root childName : String) : String :=
  root ++ "/" ++ childName

/-- The non-directory children of a directory, as `os.walk` lists them in its
`filenames` component, each tagged with whether `os.path.isfile` holds. -/
def filesOf : List Entry → List (String × Bool)
  | [] => []
  | .file n :: rest => (n, true) :: filesOf rest
  | .special n :: rest => (n, false) :: filesOf rest
  | .dir _ _ :: rest => filesOf rest

mutual

/-- Model of `os.walk(root)` over the entry list of the root directory:
top-down traversal yielding, for each directory, its path and its
non-directory children. -/
def walk (root : String) (es : List Entry) : List (String × List (String × Bool)) :=
  (root, filesOf es) :: walkSub root es

/-- Continuation of `walk` into the subdirectories, in listed order. -/
def walkSub (root : String) : List Entry → List (String × List (String × Bool))
  | [] => []
  | .file _ :: rest => walkSub root rest
  | .special _ :: rest => walkSub root rest
  | .dir n sub :: rest => walk (pathJoin root n) sub ++ walkSub root rest

end

/-- The `endswith` check of `list_fastq`: one of the four recognized
sequence-file suffixes. -/
def extMatch (filename : String) : Bool :=
  filename.endsWith ".fastq" || filename.endsWith ".fastq.gz" ||
    filename.endsWith ".fq" || filename.endsWith ".fq.gz"

/-- State of the path handed to `os.walk`: missing, not a directory, or a
directory with the given entries. `os.walk` on a missing or non-directory
path yields nothing (the scandir error goes to the default `onerror=None`). -/
inductive RootFS where
  | missing
  | notdir
  | dir (entries : List Entry)
deriving Repr

/-- The inner loop of `list_fastq` for one walked directory: keep the
filenames that are regular files with a recognized suffix and join them onto
the directory path. -/
def fastqRow (rootFiles : String × List (String × Bool)) : List String :=
  (rootFiles.2.filter fun nb => nb.2 && extMatch nb.1).map fun nb =>
    pathJoin rootFiles.1 nb.1

/-- `list_fastq(my_path)`: walk the input directory recursively and collect
`os.path.join(root, filename)` for every walked filename that is a regular
file and ends with a recognized suffix. The function only reads the
filesystem: it is side-effect free. -/
def list_fastq (my_path : String) (fs : RootFS) : List String :=
  match fs with
  | .dir es => ((walk my_path es).map fastqRow).flatten
  | _ => []

mutual

/-- Specification-side collector, following the words of the spec: the
regular files of the directory whose names match a recognized suffix, with
their joined paths, then the same recursively for each subdirectory. -/
def fastqSpecDir (root : String) (es : List Entry) : List String :=
  fastqSpecHere root es ++ fastqSpecChildren root es

/-- Matching regular files directly in this directory. -/
def fastqSpecHere (root : String) : List Entry → List String
  | [] => []
  | .file n :: rest =>
    (if extMatch n then [pathJoin root n] else []) ++ fastqSpecHere root rest
  | .special _ :: rest => fastqSpecHere root rest
  | .dir _ _ :: rest => fastqSpecHere root rest

/-- Recursion into the subdirectories. -/
def fastqSpecChildren (root : String) : List Entry → List String
  | [] => []
  | .file _ :: rest => fastqSpecChildren root rest
  | .special _ :: rest => fastqSpecChildren root rest
  | .dir n sub :: rest => fastqSpecDir (pathJoin root n) sub ++ fastqSpecChildren root rest

end

/-! Directory creation (`make_folder`). The directory tree is the list of
existing directory paths, each a list of components. -/

/-- The chain of ancestors of a path, outermost first, ending with the path
itself: for `[a, b, c]` the list `[[a], [a, b], [a, b, c]]`. -/
def ancestors (p : List String) : List (List String) :=
  (List.range p.length).map fun i => p.take (i + 1)

/-- Record one directory as existing (no duplicates). -/
def addDir (fs : List (List String)) (p : List String) : List (List String) :=
  if p ∈ fs then fs else fs ++ [p]

/-- Model of `pathlib.Path(p).mkdir(parents=..., exist_ok=...)`: an existing
target raises `FileExistsError` unless `exist_ok`; a missing parent raises
`FileNotFoundError` unless `parents`, in which case every missing ancestor is
created. -/
def pyMkdir (fs : List (List String)) (p : List String) (parents exist_ok : Bool) :
    Except PyError (List (List String)) :=
  if p ∈ fs then
    if exist_ok then .ok fs else .error .fileExistsError
  else if parents then
    .ok ((ancestors p).foldl addDir fs)
  else if p.dropLast ∈ fs ∨ p.dropLast = [] then
    .ok (addDir fs p)
  else
    .error .fileNotFoundError

/-- `make_folder(folder)`: `pathlib.Path(folder).mkdir(parents=True,
exist_ok=True)`. -/
def make_folder (fs : List (List String)) (folder : List String) :
    Except PyError (List (List String)) :=
  pyMkdir fs folder true true

/-! Theorems. -/

/-- Dispatching well-formed single-end 4-tuples issues exactly one
`extract_its_se` call per fastq, with the given CPU share. -/
theorem runTasks_se_ok (output_folder log_folder : String) (share : Nat)
    (fastq_list : List String) :
    runTasks extract_its_se_apply
        (fastq_list.map fun fastq =>
          [PyArg.s fastq, PyArg.s output_folder, PyArg.s log_folder, PyArg.i share])
      = .ok (fastq_list.map fun fastq =>
          extract_its_se fastq output_folder log_folder share) := by
  induction fastq_list with
  | nil => rfl
  | cons a rest ih => simp [runTasks, extract_its_se_apply, ih]

/-- Dispatching samples that each own an R1 and an R2 file issues exactly one
`extract_its_pe` call per sample, with the given CPU share. -/
theorem runTasks_pe_ok (output_folder log_folder : String) (share : Nat)
    (pairs : List (String × String × String)) :
    runTasks (extract_its_pe_task output_folder log_folder share)
        (pairs.map fun s => (s.1, [s.2.1, s.2.2]))
      = .ok (pairs.map fun s =>
          extract_its_pe s.2.1 s.2.2 output_folder log_folder share) := by
  induction pairs with
  | nil => rfl
  | cons a rest ih =>
    have h1 : extract_its_pe_task output_folder log_folder share (a.1, [a.2.1, a.2.2])
        = .ok (extract_its_pe a.2.1 a.2.2 output_folder log_folder share) := rfl
    simp [runTasks, h1, ih]

/-- The per-directory inner loop of `list_fastq` agrees with the
specification-side collection of matching regular files of one directory. -/
theorem fastqRow_eq_specHere (root : String) (es : List Entry) :
    fastqRow (root, filesOf es) = fastqSpecHere root es := by
  induction es with
  | nil => rfl
  | cons e rest ih =>
    cases e with
    | file n =>
      by_cases h : extMatch n <;>
        simp_all [fastqRow, filesOf, fastqSpecHere, List.filter_cons]
    | special n => simp_all [fastqRow, filesOf, fastqSpecHere, List.filter_cons]
    | dir n sub => simp_all [fastqRow, filesOf, fastqSpecHere]

/-- The walk into the subdirectories, filtered and flattened, agrees with the
specification-side recursive collection over the subdirectories. -/
theorem walkSub_spec (root : String) (es : List Entry) :
    ((walkSub root es).map fastqRow).flatten = fastqSpecChildren root es := by
  match es with
  | [] => simp [walkSub, fastqSpecChildren]
  | .file n :: rest =>
    simp only [walkSub, fastqSpecChildren]
    exact walkSub_spec root rest
  | .special n :: rest =>
    simp only [walkSub, fastqSpecChildren]
    exact walkSub_spec root rest
  | .dir n sub :: rest =>
    simp only [walkSub, fastqSpecChildren, List.map_append, List.flatten_append]
    rw [walk]
    simp only [List.map_cons, List.flatten_cons]
    rw [fastqRow_eq_specHere, walkSub_spec (pathJoin root n) sub, walkSub_spec root rest,
      fastqSpecDir, List.append_assoc]
termination_by sizeOf es

/-- Membership in `addDir`. -/
theorem mem_addDir (fs : List (List String)) (p q : List String) :
    q ∈ addDir fs p ↔ q ∈ fs ∨ q = p := by
  unfold addDir
  by_cases h : p ∈ fs
  · simp only [if_pos h]
    constructor
    · exact Or.inl
    · rintro (hq | rfl)
      · exact hq
      · exact h
  · simp [if_neg h]

/-- Membership after folding `addDir` over a list of paths. -/
theorem mem_foldl_addDir (l : List (List String)) (fs : List (List String))
    (q : List String) :
    q ∈ l.foldl addDir fs ↔ q ∈ fs ∨ q ∈ l := by
  induction l generalizing fs with
  | nil => simp
  | cons a rest ih =>
    simp only [List.foldl_cons, ih, mem_addDir, List.mem_cons]
    tauto

/-- A non-empty path is the last of its own ancestors. -/
theorem self_mem_ancestors (p : List String) (hp : p ≠ []) : p ∈ ancestors p := by
  unfold ancestors
  have hlen : 0 < p.length := List.length_pos.mpr hp
  refine List.mem_map.mpr ⟨p.length - 1, List.mem_range.mpr (by omega), ?_⟩
  rw [Nat.sub_add_cancel hlen]
  exact List.take_length p

/-- C1: the spec says every parallel dispatch routine maps the step's own
worker over the items, and in particular that `rc_fastq_parallel` dispatches
the reorient worker. The code instead maps `extract_its_se` over 3-tuples
`(fastq, output_folder, int(cpu / 4))`, but `extract_its_se` takes 4
positional parameters, so every task raises `TypeError` and no reorient
command is ever issued: on the one-file list below the dispatch propagates
`TypeError` and produces no command at all. -/
theorem C1_rc_fastq_parallel_wrong_worker :
    rc_fastq_parallel ["sample1_R1.fastq"] "out" 8
      = { pool_size := 2, tasks := .error (.typeError 3) } := by
  rfl

/-- C2: `qiime2_core_diversity` constructs its full argument vector,
including the fixed sampling depth 1000 and the `/core-metrics-results`
output directory, yet issues zero external-process invocations. -/
theorem C2_core_diversity_builds_but_never_runs :
    ∀ (cpu : Nat) (metadata_file rooted_tree_qza table_qza output_folder : String),
    qiime2_core_diversity cpu metadata_file rooted_tree_qza table_qza output_folder = []
    ∧ qiime2_core_diversity_cmd cpu metadata_file rooted_tree_qza table_qza output_folder
        = ["qiime", "diversity", "core-metrics-phylogenetic",
           "--p-n-jobs-or-threads", toString cpu,
           "--p-sampling-depth", "1000",
           "--i-phylogeny", rooted_tree_qza,
           "--i-table", table_qza,
           "--m-metadata-file", metadata_file,
           "--output-dir", output_folder ++ "/core-metrics-results"] := by
  intro cpu m r t o
  exact ⟨rfl, rfl⟩

/-- C5: on a file with a header line followed by data lines, the rewrite
leaves, at the original path, exactly the fixed new header followed by the
data lines unchanged, with the temp file consumed by the atomic replace and
no exception raised. -/
theorem C5_taxonomy_header_rewrite :
    ∀ (header : String) (data : List String),
    change_taxonomy_file_header (header :: data)
      = { raised := false, orig := newHeader :: data, tmp := none } := by
  intro header data
  rfl

/-- C6: the paired fix-fastq and paired extract-ITS steps each issue exactly
one command, and that command references both mate paths together
(`-f`/`-f2`, respectively `--fastq`/`--fastq2`). -/
theorem C6_paired_steps_single_invocation :
    ∀ (fastq_r1 fastq_r2 output_folder log_folder : String) (cpu : Nat),
    fix_fastq_pe fastq_r1 fastq_r2
      = [["python", "remove_empty_fastq_entries.py", "-f", fastq_r1, "-f2", fastq_r2]]
    ∧ extract_its_pe fastq_r1 fastq_r2 output_folder log_folder cpu
      = [["itsxpress",
          "--threads", toString cpu,
          "--fastq", fastq_r1,
          "--fastq2", fastq_r2,
          "--region", "ITS1",
          "--taxa", "Fungi",
          "--cluster_id", "0.99",
          "--outfile", output_folder ++ "/" ++ basename fastq_r1,
          "--outfile2", output_folder ++ "/" ++ basename fastq_r2,
          "--log", log_folder ++ "/" ++ sampleToken (basename fastq_r1) ++ ".log",
          "--threads", toString cpu]] := by
  intro r1 r2 o g cpu
  exact ⟨rfl, rfl⟩

/-- C7: the module calls `subprocess.run` without `check`, so an invocation
returns normally for every exit code of the external program: the exit code
is neither inspected nor propagated, and no exception reaches the caller.
Shown for the generic invoker as used by this module and for the two cited
steps. -/
theorem C7_exit_codes_swallowed :
    ∀ (cmd : Cmd) (input_fastq output_fastq classifier repseqs taxonomy : String)
      (returncode : Int),
    subprocess_run cmd false returncode = .ok { args := cmd, returncode := returncode }
    ∧ rc_fastq_exec input_fastq output_fastq returncode = .ok ()
    ∧ qiime2_classify_exec classifier repseqs taxonomy returncode = .ok () := by
  intro cmd i o c r t rc
  refine ⟨?_, ?_, ?_⟩ <;>
    simp [subprocess_run, rc_fastq_exec, qiime2_classify_exec]

/-- C9: on a zero-line input file, `next` raises `StopIteration`, the
content at the original path is unchanged, the atomic replace never runs,
and a `.tmp` sibling holding only the new header is left behind. -/
theorem C9_empty_input_raises :
    change_taxonomy_file_header [] = { raised := true, orig := [], tmp := some [newHeader] } := by
  rfl

/-- C10: on a missing root path, or a root path that is not a directory,
`list_fastq` returns the empty list rather than raising. -/
theorem C10_list_fastq_missing_root :
    ∀ my_path : String,
    list_fastq my_path .missing = [] ∧ list_fastq my_path .notdir = [] := by
  intro my_path
  exact ⟨rfl, rfl⟩

/-- C3: in both parallel extract-ITS dispatchers the worker-pool size and the
per-worker CPU share are the same number `floor(cpu / 4)` — not complementary
halves of the budget — and for a budget of 8 the pool size is 2 with each
worker granted 2 CPUs. -/
theorem C3_cpu_partition :
    ∀ (fastq_list : List String) (sample_dict : List (String × List String))
      (pairs : List (String × String × String)) (output_folder log_folder : String)
      (cpu : Nat),
    (extract_its_se_parallel fastq_list output_folder log_folder cpu).pool_size = cpu / 4
    ∧ (extract_its_se_parallel fastq_list output_folder log_folder cpu).tasks
        = .ok (fastq_list.map fun fastq =>
            extract_its_se fastq output_folder log_folder (cpu / 4))
    ∧ (extract_its_pe_parallel sample_dict output_folder log_folder cpu).pool_size = cpu / 4
    ∧ (extract_its_pe_parallel (pairs.map fun s => (s.1, [s.2.1, s.2.2]))
          output_folder log_folder cpu).tasks
        = .ok (pairs.map fun s =>
            extract_its_pe s.2.1 s.2.2 output_folder log_folder (cpu / 4))
    ∧ (extract_its_se_parallel fastq_list output_folder log_folder 8).pool_size = 2
    ∧ (extract_its_se_parallel fastq_list output_folder log_folder 8).tasks
        = .ok (fastq_list.map fun fastq =>
            extract_its_se fastq output_folder log_folder 2) := by
  intro fl sd pairs o g cpu
  exact ⟨rfl, runTasks_se_ok o g (cpu / 4) fl, rfl, runTasks_pe_ok o g (cpu / 4) pairs,
    rfl, runTasks_se_ok o g 2 fl⟩

/-- C4: on any directory tree, `list_fastq` returns exactly the regular files
whose names end with one of the four recognized suffixes, found recursively,
each with its joined path; being a pure function of the tree, it has no side
effects. -/
theorem C4_list_fastq_exact :
    ∀ (my_path : String) (es : List Entry),
    list_fastq my_path (.dir es) = fastqSpecDir my_path es := by
  intro my_path es
  show ((walk my_path es).map fastqRow).flatten = _
  rw [walk]
  simp only [List.map_cons, List.flatten_cons]
  rw [fastqRow_eq_specHere, walkSub_spec, fastqSpecDir]

/-- C8: on any directory tree closed under ancestors (as every real
filesystem is), `make_folder` returns without error, is idempotent, creates
the target directory and every missing intermediate ancestor, and is a no-op
when the directory already exists. -/
theorem C8_make_folder_idempotent (fs : List (List String)) (p : List String)
    (hclosed : ∀ q ∈ fs, ∀ a ∈ ancestors q, a ∈ fs) :
    ∃ fs2, make_folder fs p = .ok fs2
      ∧ make_folder fs2 p = .ok fs2
      ∧ (p ≠ [] → p ∈ fs2)
      ∧ (∀ a ∈ ancestors p, a ∈ fs2)
      ∧ (p ∈ fs → fs2 = fs) := by
  by_cases hp : p ∈ fs
  · refine ⟨fs, ?_, ?_, fun _ => hp, hclosed p hp, fun _ => rfl⟩
    · simp [make_folder, pyMkdir, hp]
    · simp [make_folder, pyMkdir, hp]
  · by_cases hnil : p = []
    · subst hnil
      refine ⟨fs, ?_, ?_, fun h => absurd rfl h, ?_, fun _ => rfl⟩
      · simp [make_folder, pyMkdir, hp, ancestors]
      · simp [make_folder, pyMkdir, hp, ancestors]
      · intro a ha
        simp [ancestors] at ha
    · have hself : p ∈ (ancestors p).foldl addDir fs :=
        (mem_foldl_addDir _ _ _).mpr (Or.inr (self_mem_ancestors p hnil))
      refine ⟨(ancestors p).foldl addDir fs, ?_, ?_, fun _ => hself, ?_,
        fun h => absurd h hp⟩
      · simp [make_folder, pyMkdir, hp]
      · simp [make_folder, pyMkdir, hself]
      · intro a ha
        exact (mem_foldl_addDir _ _ _).mpr (Or.inr ha)

/-- Witness for C8 at a concrete input: an empty tree and the two-component
path. -/
theorem C8_make_folder_idempotent_witness :
    ∃ fs2, make_folder [] ["data", "out"] = .ok fs2
      ∧ make_folder fs2 ["data", "out"] = .ok fs2
      ∧ (["data", "out"] ≠ ([] : List String) → ["data", "out"] ∈ fs2)
      ∧ (∀ a ∈ ancestors ["data", "out"], a ∈ fs2)
      ∧ (["data", "out"] ∈ ([] : List (List String)) → fs2 = []) :=
  C8_make_folder_idempotent [] ["data", "out"] (by simp)

end Qiime2Methods
